import Mathlib

/-
Verification of the junkie dependency-injection engine against its design
document.  The model below is a shallow embedding of
src/junkie/_async_junkie.py (class AsyncJunkie); the repository's tests
(src/test/context_test.py, src/test/test_async_support.py) supply the
concrete scenarios.  Python values are modelled by the inductive `Value`;
a factory callable is modelled by its introspected signature (a list of
`Param`, mirroring inspect.signature) together with a Lean function from
the computed call arguments to the produced object.  Machinery the engine
relies on that lives outside src/ (the blocking-mode twin `Junkie` in
_junkie.py, `Context` in context.py, `get_factory_name`/BUILTINS) is
modelled from the spec where needed; each such definition says so in its
doc comment.
-/

namespace JunkieSpec

/-- Python runtime values, as far as the engine observes them:
strings and numbers (registry literals and factory products), an object
with a `text` attribute (the test's `Class` instances), a coroutine
produced by an `async def` factory (awaitable, resolving to its payload),
and an async context manager (an object with `__aenter__`, whose enter
step yields its payload).  Everything else the engine treats opaquely. -/
inductive Value where
  | str (s : String)
  | num (n : Nat)
  | obj (text : Value)
  | coro (v : Value)
  | acm (v : Value)
  | none_
deriving DecidableEq

/-- Errors.  The source raises a single `JunkieError` class whose message
is the rendered instantiation stack followed by a kind-specific text
(src/junkie/_async_junkie.py lines 43-45, 59, 62-66, 68-72, 110-113,
136-139); `junkieError` carries both parts.  `awaitTypeError` models the
Python `TypeError` raised by `await` on a non-awaitable object.
`outOfFuel` is the model's recursion bound, never raised by the source. -/
inductive JErr where
  | junkieError (trace : String) (msg : String)
  | awaitTypeError
  | outOfFuel
deriving DecidableEq

/-- Observable events of one build: a factory body invocation (line 89),
a resource acquisition via `AsyncExitStack.enter_async_context` (line 96),
and a release performed when the exit stack closes (line 18). -/
inductive Event where
  | call (fid : Nat)
  | acquire (rid : Nat)
  | release (rid : Nat)
deriving DecidableEq

/-- Parameter kinds of `inspect.Parameter` (lines 120, 124, 141-157). -/
inductive PKind where
  | posOnly
  | posOrKw
  | varPos
  | varKw
  | kwOnly
deriving DecidableEq

/-- One introspected factory parameter: its name, kind, whether it
declares a default value (`annotation.default is not Parameter.empty`,
line 128), and, in `ann`, the callable type annotation if any
(`annotation.annotation`, line 132), given as a factory id.  `none`
models both an absent annotation and a non-callable one. -/
structure Param where
  name : String
  kind : PKind
  hasDefault : Bool
  ann : Option Nat
deriving DecidableEq

/-- The argument structure of the call
`factory(*positional_params.values(), *args, **keyword_params, **kwargs)`
(line 89), handed to the factory body exactly as the engine computed it. -/
structure CallArgs where
  positional : List Value
  varArgs : Option Value
  keyword : List (String × Value)
  varKwargs : Option Value

/-- A factory callable: display name (`get_factory_name`), source
location (`_InstantiationStack._get_source_info`, lines 211-218),
membership in BUILTINS (line 62), the introspected signature, and the
body, i.e. what the underlying Python callable returns for given call
arguments. -/
structure FactoryDef where
  fname : String
  sourceInfo : String
  isBuiltin : Bool
  params : List Param
  body : CallArgs → Value

/-- A registry (context) entry: `callable(value)` (line 54) decides
between a factory and a literal. -/
inductive CtxEntry where
  | lit (v : Value)
  | fact (fid : Nat)

/-- A program: the factory table (factory identity = index) and the
context mapping names to entries.  Lookup takes the first match, which
gives `Context.add` its overlay-shadows-base semantics. -/
structure Prog where
  factories : List FactoryDef
  context : List (String × CtxEntry)

def defaultFactoryDef : FactoryDef :=
  { fname := "unknown", sourceInfo := "unknown source", isBuiltin := false,
    params := [], body := fun _ => Value.none_ }

def getFactory (prog : Prog) (fid : Nat) : FactoryDef :=
  prog.factories.getD fid defaultFactoryDef

def getFactoryName (prog : Prog) (fid : Nat) : String :=
  (getFactory prog fid).fname

def getSourceInfo (prog : Prog) (fid : Nat) : String :=
  (getFactory prog fid).sourceInfo

/-- Mutable state of one build: the per-build instance cache
`self._instances_by_name` (newest binding first; `List.lookup` returns
it, matching dict assignment), the instantiation stack in push order, the
exit-stack registrations in acquisition order, the event trace, and the
fresh-resource counter. -/
structure BState where
  cache : List (String × Value)
  instStack : List Nat
  exits : List Nat
  events : List Event
  nextRid : Nat

def spaces : Nat → String
  | 0 => ""
  | n + 1 => " " ++ spaces n

/-- One rendered entry of `_InstantiationStack.__str__` (line 207):
newline, idx spaces, `-> name() at source-location`. -/
def stackEntryStr (prog : Prog) (idx : Nat) (fid : Nat) : String :=
  "\n" ++ spaces idx ++ "-> " ++ getFactoryName prog fid ++ "() at " ++
    getSourceInfo prog fid

/-- `_InstantiationStack.__str__` (lines 202-209): empty string for the
empty stack, otherwise all entries joined, followed by a newline. -/
def instantiationStackStr (prog : Prog) (stk : List Nat) : String :=
  if stk.isEmpty then "" else
    String.join (stk.enum.map (fun p => stackEntryStr prog p.1 p.2)) ++ "\n"

/-- `await v` (line 49): a coroutine resolves to its payload; awaiting
any non-awaitable object raises TypeError.  (That a Python coroutine can
be awaited at most once is not modelled; the error case below is enough
for the cache-hit analysis.) -/
def awaitValue : Value → Except JErr Value
  | Value.coro v => Except.ok v
  | _ => Except.error JErr.awaitTypeError

/-- `hasattr(instance, "__aenter__")` (line 91). -/
def hasAEnter : Value → Bool
  | Value.acm _ => true
  | _ => false

/-- What `enter_async_context` yields for a scoped resource (line 96). -/
def acmPayload : Value → Value
  | Value.acm v => v
  | v => v

/-- Execution mode.  `suspending` is AsyncJunkie (src); `blocking` is the
sync twin `Junkie`.  Modelled from the spec: _junkie.py is not under
src/; #1 and #5 of the design state the two variants share the resolution
semantics and differ only at the suspension points, so the blocking
variant returns a cached instance directly where AsyncJunkie line 49
awaits it, and has no other divergence. -/
inductive Mode where
  | blocking
  | suspending
deriving DecidableEq

/-- A resolution request: by instance name or by factory (with the
optional name under which to cache the result). -/
inductive ReqN where
  | byName (n : String)
  | byFactory (fid : Nat) (nm : Option String)

/-- Accumulator of `_build_parameters` (lines 100-105): the ordered
positional arguments, the `args` tuple (none = never assigned, i.e. the
initial `()`), the ordered keyword arguments, the `kwargs` dict (none =
the initial empty dict), and the `positional_params_finished` flag. -/
structure PAcc where
  positionalParams : List (String × Value)
  args : Option Value
  keywordParams : List (String × Value)
  kwargs : Option Value
  positionalParamsFinished : Bool
deriving DecidableEq

def initPAcc : PAcc := ⟨[], none, [], none, false⟩

def mkCallArgs (acc : PAcc) : CallArgs :=
  ⟨acc.positionalParams.map Prod.snd, acc.args, acc.keywordParams, acc.kwargs⟩

/-- The kind dispatch of `_build_parameters` (lines 141-160) for a
parameter whose value was resolved. -/
def assignByKind (acc : PAcc) (p : Param) (v : Value) : PAcc :=
  match p.kind with
  | PKind.posOnly =>
    { acc with positionalParams := acc.positionalParams ++ [(p.name, v)] }
  | PKind.posOrKw =>
    if acc.positionalParamsFinished then
      { acc with keywordParams := acc.keywordParams ++ [(p.name, v)] }
    else
      { acc with positionalParams := acc.positionalParams ++ [(p.name, v)] }
  | PKind.varPos => { acc with args := some v }
  | PKind.kwOnly =>
    { acc with keywordParams := acc.keywordParams ++ [(p.name, v)] }
  | PKind.varKw => { acc with kwargs := some v }

/-- The parameter loop of `_build_parameters` (lines 115-139), one
parameter at a time, with `recurse` standing for the recursive calls into
`_build_by_instance_name` (line 117) and `_build_by_factory_function`
(line 133).  The branch order is the source's: name resolvable in cache
or context first (line 116), then VAR_POSITIONAL (120), VAR_KEYWORD
(124), declared default (128), callable annotation (132), and otherwise
the unresolvable-parameter error (136-139). -/
def buildParametersAux (prog : Prog)
    (recurse : ReqN → BState → Except JErr Value × BState)
    (fd : FactoryDef) :
    List Param → PAcc → BState → Except JErr PAcc × BState
  | [], acc, st => (Except.ok acc, st)
  | p :: rest, acc, st =>
    if (st.cache.lookup p.name).isSome ∨ (prog.context.lookup p.name).isSome then
      match recurse (ReqN.byName p.name) st with
      | (Except.ok v, st') =>
        buildParametersAux prog recurse fd rest (assignByKind acc p v) st'
      | (Except.error e, st') => (Except.error e, st')
    else if p.kind = PKind.varPos then
      buildParametersAux prog recurse fd rest acc st
    else if p.kind = PKind.varKw then
      buildParametersAux prog recurse fd rest acc st
    else if p.hasDefault then
      buildParametersAux prog recurse fd rest
        { acc with positionalParamsFinished := true } st
    else
      match p.ann with
      | some aid =>
        match recurse (ReqN.byFactory aid (some p.name)) st with
        | (Except.ok v, st') =>
          buildParametersAux prog recurse fd rest (assignByKind acc p v) st'
        | (Except.error e, st') => (Except.error e, st')
      | none =>
        (Except.error (JErr.junkieError (instantiationStackStr prog st.instStack)
          ("Unable to find \"" ++ p.name ++ "\" for \"" ++ fd.fname ++ "()\"")),
         st)

/-- `_call_factory_function` (lines 82-98): build the parameters, call
the factory body, and, if the produced object has `__aenter__`, enter it
through the exit stack and replace it by what the enter step yields.
Debug logging (lines 85-87 and 92-94) is disabled and therefore absent.
The `nm` argument is used by the source only for logging. -/
def callFactoryFunctionAux (prog : Prog)
    (recurse : ReqN → BState → Except JErr Value × BState)
    (fid : Nat) (fd : FactoryDef) (_nm : Option String) (st : BState) :
    Except JErr Value × BState :=
  match buildParametersAux prog recurse fd fd.params initPAcc st with
  | (Except.error e, st') => (Except.error e, st')
  | (Except.ok acc, st') =>
    let inst := fd.body (mkCallArgs acc)
    let st2 := { st' with events := st'.events ++ [Event.call fid] }
    if hasAEnter inst then
      (Except.ok (acmPayload inst),
       { st2 with exits := st2.exits ++ [st2.nextRid],
                  events := st2.events ++ [Event.acquire st2.nextRid],
                  nextRid := st2.nextRid + 1 })
    else (Except.ok inst, st2)

def optNameStr : Option String → String
  | some n => n
  | none => "None"

/-- The resolution engine.  The two request kinds fuse the mutually
recursive methods `_build_by_instance_name` (lines 47-59) and
`_build_by_factory_function` (lines 61-80); the fuel is the model's
recursion bound (the source recurses without one).

byName: a cache hit returns the cached instance — which AsyncJunkie
line 49 awaits, while the blocking variant returns directly; then a
context literal is returned as is, a context factory is invoked with the
name, and an unknown name raises (line 59).

byFactory: the BUILTINS guard (62-66), the cycle guard (68-72), then
push the factory, call it, cache the result when a name is present
(77-78), and pop on every path (`push_temporarily`, lines 187-193). -/
def exec (prog : Prog) (mode : Mode) :
    Nat → ReqN → BState → Except JErr Value × BState
  | 0, _, st => (Except.error JErr.outOfFuel, st)
  | fuel + 1, ReqN.byName n, st =>
    match st.cache.lookup n with
    | some v =>
      match mode with
      | Mode.blocking => (Except.ok v, st)
      | Mode.suspending => (awaitValue v, st)
    | none =>
      match prog.context.lookup n with
      | some (CtxEntry.lit v) => (Except.ok v, st)
      | some (CtxEntry.fact fid) =>
        exec prog mode fuel (ReqN.byFactory fid (some n)) st
      | none =>
        (Except.error (JErr.junkieError (instantiationStackStr prog st.instStack)
          ("Unable to find \"" ++ n ++ "\"")), st)
  | fuel + 1, ReqN.byFactory fid nm, st =>
    let fd := getFactory prog fid
    if fd.isBuiltin then
      (Except.error (JErr.junkieError (instantiationStackStr prog st.instStack)
        ("Mapping for \"" ++ optNameStr nm ++ "\" of builtin type \"" ++
          fd.fname ++ "\" is missing")), st)
    else if fid ∈ st.instStack then
      (Except.error (JErr.junkieError (instantiationStackStr prog st.instStack)
        ("Dependency cycle detected with \"" ++ fd.fname ++ "()\"")), st)
    else
      let st1 := { st with instStack := st.instStack ++ [fid] }
      match callFactoryFunctionAux prog (exec prog mode fuel) fid fd nm st1 with
      | (Except.ok inst, st2) =>
        match nm with
        | some n =>
          (Except.ok inst,
           { st2 with cache := (n, inst) :: st2.cache,
                      instStack := st2.instStack.dropLast })
        | none => (Except.ok inst, { st2 with instStack := st2.instStack.dropLast })
      | (Except.error e, st2) =>
        (Except.error e, { st2 with instStack := st2.instStack.dropLast })

/-- `AsyncJunkie._build_by_instance_name` (lines 47-59). -/
def build_by_instance_name (prog : Prog) (mode : Mode) (fuel : Nat)
    (n : String) (st : BState) : Except JErr Value × BState :=
  exec prog mode fuel (ReqN.byName n) st

/-- `AsyncJunkie._build_by_factory_function` (lines 61-80). -/
def build_by_factory_function (prog : Prog) (mode : Mode) (fuel : Nat)
    (fid : Nat) (nm : Option String) (st : BState) :
    Except JErr Value × BState :=
  exec prog mode fuel (ReqN.byFactory fid nm) st

/-- `AsyncJunkie._build_parameters` (lines 100-162) for a factory. -/
def build_parameters (prog : Prog) (mode : Mode) (fuel : Nat)
    (fd : FactoryDef) (st : BState) : Except JErr PAcc × BState :=
  buildParametersAux prog (exec prog mode fuel) fd fd.params initPAcc st

/-- A build target passed to `inject` (lines 36-45): a name, a callable,
or anything else (carried as its repr, for the line 43-45 error). -/
inductive Target where
  | name (n : String)
  | factoryT (fid : Nat)
  | other (txt : String)

/-- `AsyncJunkie._build_instance` (lines 36-45). -/
def build_instance (prog : Prog) (mode : Mode) (fuel : Nat) :
    Target → BState → Except JErr Value × BState
  | Target.name n, st => exec prog mode fuel (ReqN.byName n) st
  | Target.factoryT fid, st => exec prog mode fuel (ReqN.byFactory fid none) st
  | Target.other txt, st =>
    (Except.error (JErr.junkieError (instantiationStackStr prog st.instStack)
      ("Unknown type \"" ++ txt ++ "\" (str, type or Callable expected)")), st)

/-- `AsyncJunkie._build_tuple` (lines 27-34): build each target in the
given order, collecting the instances. -/
def build_tuple (prog : Prog) (mode : Mode) (fuel : Nat) :
    List Target → List Value → BState → Except JErr (List Value) × BState
  | [], acc, st => (Except.ok acc, st)
  | t :: ts, acc, st =>
    match build_instance prog mode fuel t st with
    | (Except.ok v, st') => build_tuple prog mode fuel ts (acc ++ [v]) st'
    | (Except.error e, st') => (Except.error e, st')

/-- What one build yields (lines 22-25): a single instance for one
target, a positional tuple otherwise. -/
inductive BuildResult where
  | one (v : Value)
  | many (vs : List Value)
  | mapping (kvs : List (String × Value))
deriving DecidableEq

/-- The body of `inject` between the scope entry and the yield
(lines 22-25): exactly one target yields the instance itself, any other
count yields a tuple.  (The source tests `len(names_and_factories) == 1`;
the three-way match below is the same test, written without overlapping
patterns.) -/
def buildTargets (prog : Prog) (mode : Mode) (fuel : Nat)
    (ts : List Target) (st : BState) : Except JErr BuildResult × BState :=
  match ts with
  | [t] =>
    match build_instance prog mode fuel t st with
    | (Except.ok v, st') => (Except.ok (BuildResult.one v), st')
    | (Except.error e, st') => (Except.error e, st')
  | [] =>
    match build_tuple prog mode fuel [] [] st with
    | (Except.ok vs, st') => (Except.ok (BuildResult.many vs), st')
    | (Except.error e, st') => (Except.error e, st')
  | t1 :: t2 :: rest =>
    match build_tuple prog mode fuel (t1 :: t2 :: rest) [] st with
    | (Except.ok vs, st') => (Except.ok (BuildResult.many vs), st')
    | (Except.error e, st') => (Except.error e, st')

/-- Cross-build state: `self._instances_by_name_stack` (head = top of
stack) and the fresh-resource counter.  Modelled from the spec:
`Junkie.__init__` (in _junkie.py, not under src/) initialises the stack
with one empty frame, which line 19's `peek()` reads at top level. -/
structure InjState where
  cacheStack : List (List (String × Value))
  nextRid : Nat

def initInjState : InjState := { cacheStack := [[]], nextRid := 0 }

/-- The state of an `inject` scope between its yield and its close:
the build result, the frame that was pushed (= the build's final cache,
mutated in place in the source), the stack below it, and the pending
exit-stack registrations. -/
structure OpenScope where
  result : Except JErr BuildResult
  topFrame : List (String × Value)
  baseCacheStack : List (List (String × Value))
  exits : List Nat
  events : List Event
  nextRid : Nat

def initialBState (seed : List (String × Value)) (rid : Nat) : BState :=
  { cache := seed, instStack := [], exits := [], events := [], nextRid := rid }

/-- `inject` up to its yield (lines 14-25): open a fresh exit stack,
set the build cache to a copy of `peek()` (line 19), push it
(`push_temporarily`, line 21), and build the targets. -/
def inject_open (prog : Prog) (mode : Mode) (fuel : Nat)
    (targets : List Target) (ist : InjState) : OpenScope :=
  let seed := ist.cacheStack.headD []
  let st0 := initialBState seed ist.nextRid
  let r := buildTargets prog mode fuel targets st0
  { result := r.1, topFrame := r.2.cache, baseCacheStack := ist.cacheStack,
    exits := r.2.exits, events := r.2.events, nextRid := r.2.nextRid }

/-- The cross-build state a nested `inject` observes while an enclosing
scope is open: the pushed frame sits on top of the enclosing stack. -/
def scopeView (s : OpenScope) : InjState :=
  { cacheStack := s.topFrame :: s.baseCacheStack, nextRid := s.nextRid }

/-- The outcome of a completed `inject` scope. -/
structure InjOutcome where
  result : Except JErr BuildResult
  events : List Event
  final : InjState
  buildCache : List (String × Value)

/-- Scope exit (lines 18-21, unwinding): `push_temporarily` pops the
frame on every path, and the exit stack releases every registered
resource in reverse acquisition order, on normal completion and on a
propagating error alike (`AsyncExitStack.__aexit__`). -/
def inject_close (s : OpenScope) : InjOutcome :=
  { result := s.result,
    events := s.events ++ s.exits.reverse.map Event.release,
    final := { cacheStack := s.baseCacheStack, nextRid := s.nextRid },
    buildCache := s.topFrame }

/-- One full `inject` call (lines 14-25): open, build, yield, close. -/
def inject_run (prog : Prog) (mode : Mode) (fuel : Nat)
    (targets : List Target) (ist : InjState) : InjOutcome :=
  inject_close (inject_open prog mode fuel targets ist)

def acquiresOf (es : List Event) : List Nat :=
  es.filterMap (fun e => match e with | Event.acquire r => some r | _ => none)

def releasesOf (es : List Event) : List Nat :=
  es.filterMap (fun e => match e with | Event.release r => some r | _ => none)

/-- Modelled from the spec: `Context.add` lives in junkie/context.py,
not under src/.  Per #4.1 of the design it layers the new bindings over
the base without mutating it; lookups check the overlay first. -/
def contextAdd (base overlay : List (String × CtxEntry)) :
    List (String × CtxEntry) :=
  overlay ++ base

/-- A `Context.build` target: a single name, a set of names, a list of
names, or a factory. -/
inductive CTarget where
  | single (n : String)
  | setT (ns : List String)
  | listT (ns : List String)
  | factoryT (fid : Nat)

def toMapping (ns : List String) (o : InjOutcome) : InjOutcome :=
  { o with result :=
      match o.result with
      | Except.ok (BuildResult.many vs) =>
        Except.ok (BuildResult.mapping (ns.zip vs))
      | Except.ok (BuildResult.one v) =>
        Except.ok (BuildResult.mapping (ns.zip [v]))
      | r => r }

/-- Modelled from the spec: `Context.build` lives in junkie/context.py,
not under src/.  A single name or a factory is delegated to `inject` and
yields the instance itself; a collection of names is built through
`inject` and the instances are keyed by name into a mapping — the shape
the repository's own test asserts for both the set and the list target
(src/test/context_test.py lines 23-27). -/
def contextBuild (prog : Prog) (mode : Mode) (fuel : Nat)
    (t : CTarget) (ist : InjState) : InjOutcome :=
  match t with
  | CTarget.single n => inject_run prog mode fuel [Target.name n] ist
  | CTarget.factoryT fid => inject_run prog mode fuel [Target.factoryT fid] ist
  | CTarget.setT ns =>
    toMapping ns (inject_run prog mode fuel (ns.map Target.name) ist)
  | CTarget.listT ns =>
    toMapping ns (inject_run prog mode fuel (ns.map Target.name) ist)

/-- Modelled from the spec: the collection rule of #4.2 exactly as the
design words it — "a set-like target yields a name-to-instance mapping; a
sequence-like or single target yields the instance(s) directly", the
sequence case as a positional tuple.  Kept separate from `contextBuild`
so the two readings can be compared. -/
def contextBuildAsSpecified (prog : Prog) (mode : Mode) (fuel : Nat)
    (t : CTarget) (ist : InjState) : InjOutcome :=
  match t with
  | CTarget.single n => inject_run prog mode fuel [Target.name n] ist
  | CTarget.factoryT fid => inject_run prog mode fuel [Target.factoryT fid] ist
  | CTarget.setT ns =>
    toMapping ns (inject_run prog mode fuel (ns.map Target.name) ist)
  | CTarget.listT ns => inject_run prog mode fuel (ns.map Target.name) ist

def strOf : Value → String
  | Value.str s => s
  | _ => ""

/-- A factory body concatenating its positional string arguments, e.g.
`lambda prefix, suffix: prefix + suffix` (src/test/context_test.py
line 16). -/
def concatPos (ca : CallArgs) : Value :=
  Value.str (String.join (ca.positional.map strOf))

/- Concrete programs taken from the repository's tests and from the
design document's scenarios. -/

/-- The `text` lambda of ContextTest.test_context_add_build
(src/test/context_test.py line 16). -/
def textFactory : FactoryDef :=
  { fname := "<lambda>", sourceInfo := "\"context_test.py:16\"",
    isBuiltin := false,
    params := [⟨"prefix", PKind.posOrKw, false, none⟩,
               ⟨"suffix", PKind.posOrKw, false, none⟩],
    body := concatPos }

/-- `Class` of ContextTest.test_context_add_build (context_test.py
lines 9-11): `__init__(self, prefix, suffix)` sets
`self.text = prefix + suffix`. -/
def classFactory : FactoryDef :=
  { fname := "Class", sourceInfo := "\"context_test.py:9\"",
    isBuiltin := false,
    params := [⟨"prefix", PKind.posOrKw, false, none⟩,
               ⟨"suffix", PKind.posOrKw, false, none⟩],
    body := fun ca => Value.obj (concatPos ca) }

/-- The registry of ContextTest.test_context_add_build (lines 13-21):
base bindings, then `context.add` overlaying `class` and `suffix`. -/
def contextTestProg : Prog :=
  { factories := [textFactory, classFactory],
    context := contextAdd
      [(("prefix"), CtxEntry.lit (Value.str ("abc"))),
       (("suffix"), CtxEntry.lit (Value.str ("def"))),
       (("text"), CtxEntry.fact 0)]
      [(("class"), CtxEntry.fact 1),
       (("suffix"), CtxEntry.lit (Value.str ("xyz")))] }

/-- A zero-parameter factory returning the plain string `x` (a sync
factory whose product is not awaitable). -/
def constStrFactory : FactoryDef :=
  { fname := "make_a", sourceInfo := "\"example.py:1\"", isBuiltin := false,
    params := [], body := fun _ => Value.str ("x") }

/-- Registry binding `a` to that factory, for the singleton-per-build
analysis. -/
def singletonProg : Prog :=
  { factories := [constStrFactory], context := [(("a"), CtxEntry.fact 0)] }

/-- `f(b)` of the design's mutual-cycle scenario #5 of section 8. -/
def cycleFactoryF : FactoryDef :=
  { fname := "f", sourceInfo := "\"cycle.py:1\"", isBuiltin := false,
    params := [⟨"b", PKind.posOrKw, false, none⟩],
    body := fun _ => Value.none_ }

/-- `g(a)` of the same scenario. -/
def cycleFactoryG : FactoryDef :=
  { fname := "g", sourceInfo := "\"cycle.py:5\"", isBuiltin := false,
    params := [⟨"a", PKind.posOrKw, false, none⟩],
    body := fun _ => Value.none_ }

/-- Registry `a -> f(b), b -> g(a)` (mutual cycle). -/
def cycleProg : Prog :=
  { factories := [cycleFactoryF, cycleFactoryG],
    context := [(("a"), CtxEntry.fact 0), (("b"), CtxEntry.fact 1)] }

/-- A factory `f(a="x")` whose single parameter declares a default and
is also bound in the registry. -/
def defaultedParamFactory : FactoryDef :=
  { fname := "f", sourceInfo := "\"defaulted.py:1\"", isBuiltin := false,
    params := [⟨"a", PKind.posOrKw, true, none⟩],
    body := concatPos }

def defaultedParamProg : Prog :=
  { factories := [defaultedParamFactory],
    context := [(("a"), CtxEntry.lit (Value.str ("A")))] }

/-- A factory `f(*args)` whose variadic collector's name is bound in the
registry. -/
def varArgsFactory : FactoryDef :=
  { fname := "f", sourceInfo := "\"varargs.py:1\"", isBuiltin := false,
    params := [⟨"args", PKind.varPos, false, none⟩],
    body := fun _ => Value.none_ }

def varArgsProg : Prog :=
  { factories := [varArgsFactory],
    context := [(("args"), CtxEntry.lit (Value.str ("V")))] }

/-- A zero-parameter factory used as a callable type annotation. -/
def annTargetFactory : FactoryDef :=
  { fname := "Ann", sourceInfo := "\"ann.py:1\"", isBuiltin := false,
    params := [], body := fun _ => Value.str ("anon") }

/-- A factory `h(x: Ann)` whose parameter `x` is not bound anywhere and
carries the callable annotation `Ann`. -/
def annUserFactory : FactoryDef :=
  { fname := "h", sourceInfo := "\"ann.py:5\"", isBuiltin := false,
    params := [⟨"x", PKind.posOrKw, false, some 1⟩],
    body := fun ca => ca.positional.headD Value.none_ }

def annProg : Prog :=
  { factories := [annUserFactory, annTargetFactory], context := [] }

/-- `async_test` of src/test/test_async_support.py (lines 8-10): an
asynccontextmanager factory whose acquisition yields the given value. -/
def acmFactory (v : Value) : FactoryDef :=
  { fname := "async_test", sourceInfo := "\"test_async_support.py:8\"",
    isBuiltin := false, params := [], body := fun _ => Value.acm v }

/-- Registry `text -> async_test` (test_async_support.py line 14),
parameterised by the value the resource's enter step produces. -/
def acmProg (v : Value) : Prog :=
  { factories := [acmFactory v], context := [(("text"), CtxEntry.fact 0)] }

/-- A registry with one scoped resource under `r` and nothing else, for
the acquisition-then-failure scenario. -/
def acqFailProg : Prog :=
  { factories := [acmFactory (Value.str ("res"))],
    context := [(("r"), CtxEntry.fact 0)] }

/-- Registry binding `a` to a plain string literal, with no factories. -/
def litProg : Prog :=
  { factories := [], context := [(("a"), CtxEntry.lit (Value.str ("x")))] }

/-- The build-state invariant behind the resource-lifecycle guarantee:
the acquire events match the exit-stack registrations in order, no
release has happened yet (releases only run at scope close), and the
registered resource ids are strictly increasing and below the fresh
counter (hence pairwise distinct). -/
def InvB (st : BState) : Prop :=
  acquiresOf st.events = st.exits ∧ releasesOf st.events = [] ∧
  List.Pairwise (· < ·) st.exits ∧ ∀ r ∈ st.exits, r < st.nextRid

/-- A state transformer preserves the lifecycle invariant. -/
def Preserves {α : Type} (f : BState → α × BState) : Prop :=
  ∀ st, InvB st → InvB (f st).2

/-- A degenerate resolver that answers every request with a fixed value
and no state change; used to instantiate the binder lemmas on concrete
inputs. -/
def constRecurse (v : Value) : ReqN → BState → Except JErr Value × BState :=
  fun _ st => (Except.ok v, st)

/- Helper lemmas. -/

theorem lookup_cons_self {β : Type} (n : String) (v : β)
    (l : List (String × β)) : List.lookup n ((n, v) :: l) = some v := by
  simp [List.lookup]

theorem acquiresOf_append (a b : List Event) :
    acquiresOf (a ++ b) = acquiresOf a ++ acquiresOf b := by
  simp [acquiresOf]

theorem releasesOf_append (a b : List Event) :
    releasesOf (a ++ b) = releasesOf a ++ releasesOf b := by
  simp [releasesOf]

theorem acquiresOf_release_map (l : List Nat) :
    acquiresOf (l.map Event.release) = [] := by
  induction l with
  | nil => rfl
  | cons x xs ih => simp only [List.map_cons, acquiresOf, List.filterMap_cons]; exact ih

theorem releasesOf_release_map (l : List Nat) :
    releasesOf (l.map Event.release) = l := by
  induction l with
  | nil => rfl
  | cons x xs ih => simpa [releasesOf] using ih

theorem invB_call (st : BState) (fid : Nat) (h : InvB st) :
    InvB { st with events := st.events ++ [Event.call fid] } := by
  obtain ⟨h1, h2, h3, h4⟩ := h
  refine ⟨?_, ?_, h3, h4⟩
  · show acquiresOf (st.events ++ [Event.call fid]) = st.exits
    rw [acquiresOf_append, h1]
    simp [acquiresOf]
  · show releasesOf (st.events ++ [Event.call fid]) = []
    rw [releasesOf_append, h2]
    simp [releasesOf]

theorem invB_acquire (st : BState) (h : InvB st) :
    InvB { st with exits := st.exits ++ [st.nextRid],
                   events := st.events ++ [Event.acquire st.nextRid],
                   nextRid := st.nextRid + 1 } := by
  obtain ⟨h1, h2, h3, h4⟩ := h
  refine ⟨?_, ?_, ?_, ?_⟩
  · show acquiresOf (st.events ++ [Event.acquire st.nextRid]) =
      st.exits ++ [st.nextRid]
    rw [acquiresOf_append, h1]
    simp [acquiresOf]
  · show releasesOf (st.events ++ [Event.acquire st.nextRid]) = []
    rw [releasesOf_append, h2]
    simp [releasesOf]
  · refine List.pairwise_append.mpr ⟨h3, List.pairwise_singleton _ _, ?_⟩
    intro a ha b hb
    simp only [List.mem_singleton] at hb
    subst hb
    exact h4 a ha
  · intro r hr
    rcases List.mem_append.mp hr with hr | hr
    · exact Nat.lt_succ_of_lt (h4 r hr)
    · simp only [List.mem_singleton] at hr
      subst hr
      exact Nat.lt_succ_self _

theorem assignByKind_flag (acc : PAcc) (p : Param) (v : Value) :
    (assignByKind acc p v).positionalParamsFinished =
      acc.positionalParamsFinished := by
  cases hk : p.kind <;> simp [assignByKind, hk]
  split <;> rfl

theorem assignByKind_positional_frozen (acc : PAcc) (p : Param) (v : Value)
    (hk : p.kind ≠ PKind.posOnly)
    (hf : acc.positionalParamsFinished = true) :
    (assignByKind acc p v).positionalParams = acc.positionalParams := by
  cases hkk : p.kind <;> simp [assignByKind, hkk, hf]
  exact absurd hkk hk

theorem preserves_buildParametersAux (prog : Prog)
    (recurse : ReqN → BState → Except JErr Value × BState)
    (hrec : ∀ req, Preserves (recurse req)) (fd : FactoryDef) :
    ∀ (ps : List Param) (acc : PAcc),
      Preserves (buildParametersAux prog recurse fd ps acc) := by
  intro ps
  induction ps with
  | nil => intro acc st h; exact h
  | cons p rest ih =>
    intro acc st h
    show InvB (buildParametersAux prog recurse fd (p :: rest) acc st).2
    rw [buildParametersAux]
    by_cases hres :
        (st.cache.lookup p.name).isSome ∨ (prog.context.lookup p.name).isSome
    · simp only [if_pos hres]
      have hr := hrec (ReqN.byName p.name) st h
      cases hc : recurse (ReqN.byName p.name) st with
      | mk r st' =>
        rw [hc] at hr
        cases r with
        | ok v => exact ih (assignByKind acc p v) st' hr
        | error e => exact hr
    · simp only [if_neg hres]
      by_cases hvp : p.kind = PKind.varPos
      · simp only [if_pos hvp]
        exact ih acc st h
      · simp only [if_neg hvp]
        by_cases hvk : p.kind = PKind.varKw
        · simp only [if_pos hvk]
          exact ih acc st h
        · simp only [if_neg hvk]
          by_cases hd : p.hasDefault
          · simp only [if_pos hd]
            exact ih _ st h
          · simp only [if_neg hd]
            cases hann : p.ann with
            | none => exact h
            | some aid =>
              have hr := hrec (ReqN.byFactory aid (some p.name)) st h
              cases hc : recurse (ReqN.byFactory aid (some p.name)) st with
              | mk r st' =>
                rw [hc] at hr
                cases r with
                | ok v =>
                  have hcont := ih (assignByKind acc p v) st' hr
                  simpa [hc] using hcont
                | error e => simpa [hc] using hr

theorem preserves_callFactoryFunctionAux (prog : Prog)
    (recurse : ReqN → BState → Except JErr Value × BState)
    (fid : Nat) (fd : FactoryDef) (nm : Option String)
    (hrec : ∀ req, Preserves (recurse req)) :
    Preserves (callFactoryFunctionAux prog recurse fid fd nm) := by
  intro st h
  show InvB (callFactoryFunctionAux prog recurse fid fd nm st).2
  rw [callFactoryFunctionAux]
  have hp := preserves_buildParametersAux prog recurse hrec fd fd.params initPAcc st h
  cases hbp : buildParametersAux prog recurse fd fd.params initPAcc st with
  | mk r st' =>
    rw [hbp] at hp
    cases r with
    | error e => exact hp
    | ok acc =>
      simp only []
      by_cases hae : hasAEnter (fd.body (mkCallArgs acc))
      · simp only [if_pos hae]
        exact invB_acquire _ (invB_call st' fid hp)
      · simp only [if_neg hae]
        exact invB_call st' fid hp

theorem preserves_exec (prog : Prog) (mode : Mode) :
    ∀ (fuel : Nat) (req : ReqN), Preserves (exec prog mode fuel req) := by
  intro fuel
  induction fuel with
  | zero => intro req st h; exact h
  | succ fuel ih =>
    intro req st h
    cases req with
    | byName n =>
      show InvB (exec prog mode (fuel + 1) (ReqN.byName n) st).2
      rw [exec]
      cases hcl : st.cache.lookup n with
      | some v =>
        cases mode <;> exact h
      | none =>
        cases hctx : prog.context.lookup n with
        | none => exact h
        | some entry =>
          cases entry with
          | lit v => exact h
          | fact fid => exact ih (ReqN.byFactory fid (some n)) st h
    | byFactory fid nm =>
      show InvB (exec prog mode (fuel + 1) (ReqN.byFactory fid nm) st).2
      rw [exec]
      by_cases hb : (getFactory prog fid).isBuiltin
      · simp only [hb, if_pos, if_true]
        exact h
      · simp only [hb, if_false, Bool.false_eq_true, if_neg, not_false_iff]
        by_cases hmem : fid ∈ st.instStack
        · simp only [if_pos hmem]
          exact h
        · simp only [if_neg hmem]
          have h1 : InvB { st with instStack := st.instStack ++ [fid] } := h
          have hc := preserves_callFactoryFunctionAux prog
            (exec prog mode fuel) fid (getFactory prog fid) nm ih
            { st with instStack := st.instStack ++ [fid] } h1
          cases hcc : callFactoryFunctionAux prog (exec prog mode fuel) fid
              (getFactory prog fid) nm
              { st with instStack := st.instStack ++ [fid] } with
          | mk r st2 =>
            rw [hcc] at hc
            cases r with
            | ok inst => cases nm <;> exact hc
            | error e => exact hc

theorem preserves_build_instance (prog : Prog) (mode : Mode) (fuel : Nat)
    (t : Target) : Preserves (build_instance prog mode fuel t) := by
  intro st h
  cases t with
  | name n => exact preserves_exec prog mode fuel (ReqN.byName n) st h
  | factoryT fid => exact preserves_exec prog mode fuel (ReqN.byFactory fid none) st h
  | other txt => exact h

theorem preserves_build_tuple (prog : Prog) (mode : Mode) (fuel : Nat) :
    ∀ (ts : List Target) (acc : List Value),
      Preserves (build_tuple prog mode fuel ts acc) := by
  intro ts
  induction ts with
  | nil => intro acc st h; exact h
  | cons t rest ih =>
    intro acc st h
    show InvB (build_tuple prog mode fuel (t :: rest) acc st).2
    rw [build_tuple]
    have hb := preserves_build_instance prog mode fuel t st h
    cases hc : build_instance prog mode fuel t st with
    | mk r st' =>
      rw [hc] at hb
      cases r with
      | ok v => exact ih (acc ++ [v]) st' hb
      | error e => exact hb

theorem preserves_buildTargets (prog : Prog) (mode : Mode) (fuel : Nat)
    (ts : List Target) : Preserves (buildTargets prog mode fuel ts) := by
  intro st h
  show InvB (buildTargets prog mode fuel ts st).2
  match ts with
  | [t] =>
    rw [buildTargets]
    have hb := preserves_build_instance prog mode fuel t st h
    cases hc : build_instance prog mode fuel t st with
    | mk r st' =>
      rw [hc] at hb
      cases r with
      | ok v => exact hb
      | error e => exact hb
  | [] =>
    rw [buildTargets]
    have hb := preserves_build_tuple prog mode fuel [] [] st h
    cases hc : build_tuple prog mode fuel [] [] st with
    | mk r st' =>
      rw [hc] at hb
      cases r with
      | ok v => exact hb
      | error e => exact hb
  | t1 :: t2 :: rest =>
    rw [buildTargets]
    have hb := preserves_build_tuple prog mode fuel (t1 :: t2 :: rest) [] st h
    cases hc : build_tuple prog mode fuel (t1 :: t2 :: rest) [] st with
    | mk r st' =>
      rw [hc] at hb
      cases r with
      | ok v => exact hb
      | error e => exact hb

/-- C1: the claim says that once an instance is cached under a name,
every later resolution of that name in the same build returns the
identical instance, in suspending mode too and whether or not the cached
instance is awaitable.  The code falsifies the suspending half:
AsyncJunkie line 49 awaits the cached instance, and awaiting the cached
non-awaitable string raises TypeError, so the second resolution of `a`
aborts the build instead of returning the instance.  The blocking-mode
conjunct shows the cascade otherwise does give the singleton behaviour,
which is why this is recorded as a code bug rather than a spec error. -/
theorem claim_C1_cache_hit_await_raises :
    (inject_run singletonProg Mode.suspending 30
        [Target.name ("a"), Target.name ("a")] initInjState).result =
      Except.error JErr.awaitTypeError
    ∧ (inject_run singletonProg Mode.blocking 30
        [Target.name ("a"), Target.name ("a")] initInjState).result =
      Except.ok (BuildResult.many [Value.str ("x"), Value.str ("x")]) :=
  ⟨rfl, rfl⟩

/-- C4: release actions of all resources entered during a build run in
exactly reverse acquisition order, each exactly once, on every exit path.
First conjunct: for every program, mode, fuel, target list and incoming
state, the release events of a completed `inject` are exactly the
reverse of its acquire events, and the acquire events are pairwise
distinct — whether the build result is a success or an error.  Second
conjunct: the concrete later-acquisition-fails scenario (resource `r`
entered, then an unknown name aborts the build) still releases the
acquired resource, and the build indeed ends in the unknown-dependency
error. -/
theorem claim_C4_reverse_release :
    (∀ (prog : Prog) (mode : Mode) (fuel : Nat) (targets : List Target)
        (ist : InjState),
      releasesOf (inject_run prog mode fuel targets ist).events =
          (acquiresOf (inject_run prog mode fuel targets ist).events).reverse
        ∧ (acquiresOf (inject_run prog mode fuel targets ist).events).Nodup)
    ∧ (inject_run acqFailProg Mode.suspending 20
          [Target.name ("r"), Target.name ("missing")] initInjState).events =
        [Event.call 0, Event.acquire 0, Event.release 0]
    ∧ (inject_run acqFailProg Mode.suspending 20
          [Target.name ("r"), Target.name ("missing")] initInjState).result =
        Except.error (JErr.junkieError ("") ("Unable to find \"missing\"")) := by
  refine ⟨?_, rfl, rfl⟩
  intro prog mode fuel targets ist
  have h0 : InvB (initialBState (ist.cacheStack.headD []) ist.nextRid) := by
    refine ⟨rfl, rfl, List.Pairwise.nil, ?_⟩
    intro r hr
    cases hr
  have h1 := preserves_buildTargets prog mode fuel targets _ h0
  obtain ⟨ha, hrel, hpw, _⟩ := h1
  have heq : (inject_run prog mode fuel targets ist).events =
      (buildTargets prog mode fuel targets
        (initialBState (ist.cacheStack.headD []) ist.nextRid)).2.events ++
      ((buildTargets prog mode fuel targets
        (initialBState (ist.cacheStack.headD []) ist.nextRid)).2.exits).reverse.map
        Event.release := rfl
  constructor
  · rw [heq, releasesOf_append, acquiresOf_append, hrel, ha,
      releasesOf_release_map, acquiresOf_release_map, List.nil_append,
      List.append_nil]
  · rw [heq, acquiresOf_append, ha, acquiresOf_release_map, List.append_nil]
    exact hpw.imp (fun hlt => Nat.ne_of_lt hlt)

/-- C9: a nested build started inside an open enclosing scope is seeded
with (a copy of) the enclosing build's current cache frame, and after
the nested scope exits the enclosing stack is exactly as before: the
enclosing frame is still on top, its contents and lookups unchanged, so
nothing cached inside the nested build appears in the enclosing cache.
The fourth conjunct states the seeding: the nested build's result is the
result of running its targets from an initial state whose cache is the
enclosing top frame. -/
theorem claim_C9_nested_cache_overlay :
    ∀ (prog : Prog) (mode : Mode) (fuel : Nat) (ts : List Target)
      (S : OpenScope),
      (inject_run prog mode fuel ts (scopeView S)).final.cacheStack =
          S.topFrame :: S.baseCacheStack
      ∧ ((scopeView S).cacheStack.headD []) = S.topFrame
      ∧ (∀ n : String,
          (((inject_run prog mode fuel ts
              (scopeView S)).final.cacheStack.headD []).lookup n) =
            S.topFrame.lookup n)
      ∧ (inject_run prog mode fuel ts (scopeView S)).result =
          (buildTargets prog mode fuel ts
            (initialBState S.topFrame S.nextRid)).1 := by
  intro prog mode fuel ts S
  exact ⟨rfl, rfl, fun n => rfl, rfl⟩

/-- C2: a factory already present in the instantiation stack fails with
the dependency-cycle error before any further recursion, and the error
carries the rendered full current stack (every entry giving the
factory's name and source location) followed by the cycle message.
First conjunct: the guard, for every program, mode, fuel, factory,
caching name and state.  Second conjunct: the design's mutual-cycle
scenario `a -> f(b), b -> g(a)` terminates in that error for every fuel
of the shape `k + 16`, i.e. no matter how much recursion budget is
available, and the trace string lists the whole chain `f`, `g` with
their source locations. -/
theorem claim_C2_dependency_cycle :
    (∀ (prog : Prog) (mode : Mode) (fuel : Nat) (fid : Nat)
        (nm : Option String) (st : BState),
      fid ∈ st.instStack → (getFactory prog fid).isBuiltin = false →
      build_by_factory_function prog mode (fuel + 1) fid nm st =
        (Except.error (JErr.junkieError (instantiationStackStr prog st.instStack)
          ("Dependency cycle detected with \"" ++
            (getFactory prog fid).fname ++ "()\"")), st))
    ∧ (∀ (k : Nat) (mode : Mode),
      (inject_run cycleProg mode (k + 16) [Target.name ("a")]
          initInjState).result =
        Except.error (JErr.junkieError
          ("\n-> f() at \"cycle.py:1\"\n -> g() at \"cycle.py:5\"\n")
          ("Dependency cycle detected with \"f()\""))) := by
  constructor
  · intro prog mode fuel fid nm st hmem hnb
    show exec prog mode (fuel + 1) (ReqN.byFactory fid nm) st = _
    rw [exec]
    simp only [hnb, Bool.false_eq_true, if_false, if_pos hmem]
  · intro k mode
    rfl

/-- C2 witness: the cycle guard instantiated at the mutual-cycle program
with factory 0 already on the stack. -/
theorem claim_C2_dependency_cycle_witness :
    ((0 : Nat) ∈ ([0] : List Nat)
      ∧ (getFactory cycleProg 0).isBuiltin = false)
    ∧ build_by_factory_function cycleProg Mode.blocking 3 0 none
        { cache := [], instStack := [0], exits := [], events := [],
          nextRid := 0 } =
      (Except.error (JErr.junkieError (instantiationStackStr cycleProg [0])
        ("Dependency cycle detected with \"f()\"")),
       { cache := [], instStack := [0], exits := [], events := [],
         nextRid := 0 }) :=
  ⟨⟨by decide, rfl⟩,
   claim_C2_dependency_cycle.1 cycleProg Mode.blocking 2 0 none
     { cache := [], instStack := [0], exits := [], events := [],
       nextRid := 0 } (by decide) rfl⟩

/-- C3 counterexample: the claim says a registry literal is cached and
then returned.  Building the literal `a` returns it but leaves the state
— in particular the per-build cache — completely unchanged: the literal
is not cached (AsyncJunkie line 57 returns it without a cache write). -/
theorem claim_C3_literal_not_cached_counterexample :
    build_by_instance_name litProg Mode.blocking 5 ("a")
        (initialBState [] 0) =
      (Except.ok (Value.str ("x")), initialBState [] 0)
    ∧ (initialBState [] 0).cache.lookup ("a") = none :=
  ⟨rfl, rfl⟩

/-- C3 as amended: for a single-name target, (1) a cache hit returns the
cached instance with the state untouched (blocking mode; the suspending
variant awaits the cached entry instead, see C1); (2) a registry literal
is returned as is and NOT cached (the state is unchanged); (3) a registry
factory is invoked through the factory path under that name, and (4) when
that invocation succeeds its result is cached under the name; (5) a name
absent from both cache and registry fails with the unknown-dependency
error carrying the current stack trace. -/
theorem claim_C3_single_name_cascade :
    (∀ (prog : Prog) (fuel : Nat) (n : String) (st : BState) (v : Value),
      st.cache.lookup n = some v →
      build_by_instance_name prog Mode.blocking (fuel + 1) n st =
        (Except.ok v, st))
    ∧ (∀ (prog : Prog) (mode : Mode) (fuel : Nat) (n : String) (st : BState)
        (v : Value),
      st.cache.lookup n = none →
      prog.context.lookup n = some (CtxEntry.lit v) →
      build_by_instance_name prog mode (fuel + 1) n st = (Except.ok v, st))
    ∧ (∀ (prog : Prog) (mode : Mode) (fuel : Nat) (n : String) (st : BState)
        (fid : Nat),
      st.cache.lookup n = none →
      prog.context.lookup n = some (CtxEntry.fact fid) →
      build_by_instance_name prog mode (fuel + 1) n st =
        build_by_factory_function prog mode fuel fid (some n) st)
    ∧ (∀ (prog : Prog) (mode : Mode) (fuel : Nat) (fid : Nat) (n : String)
        (st : BState) (v : Value) (st' : BState),
      build_by_factory_function prog mode (fuel + 1) fid (some n) st =
        (Except.ok v, st') →
      st'.cache.lookup n = some v)
    ∧ (∀ (prog : Prog) (mode : Mode) (fuel : Nat) (n : String) (st : BState),
      st.cache.lookup n = none →
      prog.context.lookup n = none →
      build_by_instance_name prog mode (fuel + 1) n st =
        (Except.error (JErr.junkieError (instantiationStackStr prog st.instStack)
          ("Unable to find \"" ++ n ++ "\"")), st)) := by
  refine ⟨?_, ?_, ?_, ?_, ?_⟩
  · intro prog fuel n st v hc
    show exec prog Mode.blocking (fuel + 1) (ReqN.byName n) st = _
    rw [exec, hc]
  · intro prog mode fuel n st v hc hctx
    show exec prog mode (fuel + 1) (ReqN.byName n) st = _
    rw [exec, hc, hctx]
  · intro prog mode fuel n st fid hc hctx
    show exec prog mode (fuel + 1) (ReqN.byName n) st = _
    rw [exec, hc, hctx]
    rfl
  · intro prog mode fuel fid n st v st' hE
    rw [build_by_factory_function, exec] at hE
    by_cases hb : (getFactory prog fid).isBuiltin
    · simp only [hb, if_true] at hE
      cases hE
    · simp only [hb, Bool.false_eq_true, if_false] at hE
      by_cases hmem : fid ∈ st.instStack
      · simp only [if_pos hmem] at hE
        cases hE
      · simp only [if_neg hmem] at hE
        cases hcc : callFactoryFunctionAux prog (exec prog mode fuel) fid
            (getFactory prog fid) (some n)
            { st with instStack := st.instStack ++ [fid] } with
        | mk r st2 =>
          rw [hcc] at hE
          cases r with
          | error e => cases hE
          | ok inst =>
            simp only [Prod.mk.injEq, Except.ok.injEq] at hE
            obtain ⟨hv, hst⟩ := hE
            subst hv
            rw [← hst]
            exact lookup_cons_self n inst st2.cache
  · intro prog mode fuel n st hc hctx
    show exec prog mode (fuel + 1) (ReqN.byName n) st = _
    rw [exec, hc, hctx]

/-- C3 witness: the cascade instantiated concretely — a cache hit on `c`,
the literal branch for `a`, the factory branch and its caching for the
singleton program, and the unknown-name error for `missing`. -/
theorem claim_C3_single_name_cascade_witness :
    ((initialBState [(("c"), Value.num 1)] 0).cache.lookup ("c") =
        some (Value.num 1)
      ∧ build_by_instance_name litProg Mode.blocking 4 ("c")
          (initialBState [(("c"), Value.num 1)] 0) =
        (Except.ok (Value.num 1), initialBState [(("c"), Value.num 1)] 0))
    ∧ (litProg.context.lookup ("a") = some (CtxEntry.lit (Value.str ("x")))
      ∧ build_by_instance_name litProg Mode.suspending 4 ("a")
          (initialBState [] 0) =
        (Except.ok (Value.str ("x")), initialBState [] 0))
    ∧ (singletonProg.context.lookup ("a") = some (CtxEntry.fact 0)
      ∧ build_by_instance_name singletonProg Mode.blocking 4 ("a")
          (initialBState [] 0) =
        build_by_factory_function singletonProg Mode.blocking 3 0 (some ("a"))
          (initialBState [] 0))
    ∧ ((build_by_factory_function singletonProg Mode.blocking 4 0 (some ("a"))
          (initialBState [] 0)).2.cache.lookup ("a") =
        some (Value.str ("x")))
    ∧ build_by_instance_name litProg Mode.blocking 4 ("missing")
        (initialBState [] 0) =
      (Except.error (JErr.junkieError ("") ("Unable to find \"missing\"")),
       initialBState [] 0) :=
  ⟨⟨rfl, claim_C3_single_name_cascade.1 litProg 3 ("c")
      (initialBState [(("c"), Value.num 1)] 0) (Value.num 1) rfl⟩,
   ⟨rfl, claim_C3_single_name_cascade.2.1 litProg Mode.suspending 3 ("a")
      (initialBState [] 0) (Value.str ("x")) rfl rfl⟩,
   ⟨rfl, claim_C3_single_name_cascade.2.2.1 singletonProg Mode.blocking 3
      ("a") (initialBState [] 0) 0 rfl rfl⟩,
   claim_C3_single_name_cascade.2.2.2.1 singletonProg Mode.blocking 3 0
      ("a") (initialBState [] 0) (Value.str ("x")) _ rfl,
   claim_C3_single_name_cascade.2.2.2.2 litProg Mode.blocking 3 ("missing")
      (initialBState [] 0) rfl rfl⟩

/-- C5 counterexample: the claim's sequence rule (a list target yields
the instances as a positional tuple) contradicts the repository's own
test.  At the test's registry and the test's list target
`["text", "prefix"]`, the claim-worded build yields the tuple while the
repository test (context_test.py lines 26-27) asserts the mapping — and
the two results differ. -/
theorem claim_C5_list_target_counterexample :
    (contextBuildAsSpecified contextTestProg Mode.blocking 20
        (CTarget.listT [("text"), ("prefix")]) initInjState).result =
      Except.ok (BuildResult.many [Value.str ("abcxyz"), Value.str ("abc")])
    ∧ (contextBuild contextTestProg Mode.blocking 20
        (CTarget.listT [("text"), ("prefix")]) initInjState).result =
      Except.ok (BuildResult.mapping
        [(("text"), Value.str ("abcxyz")), (("prefix"), Value.str ("abc"))])
    ∧ BuildResult.many [Value.str ("abcxyz"), Value.str ("abc")] ≠
      BuildResult.mapping
        [(("text"), Value.str ("abcxyz")), (("prefix"), Value.str ("abc"))] :=
  ⟨rfl, rfl, by decide⟩

/-- C5 as amended: in `Context.build`, a set target AND a list target
both yield the name-to-instance mapping (as the repository test asserts
for the overlaid registry), a single-name target yields the instance
itself, a factory target yields the built instance, and `inject` with
several names yields the instances as a positional tuple in the order
the names were given. -/
theorem claim_C5_target_shapes :
    (contextBuild contextTestProg Mode.blocking 20
        (CTarget.setT [("text"), ("prefix")]) initInjState).result =
      Except.ok (BuildResult.mapping
        [(("text"), Value.str ("abcxyz")), (("prefix"), Value.str ("abc"))])
    ∧ (contextBuild contextTestProg Mode.blocking 20
        (CTarget.listT [("text"), ("prefix")]) initInjState).result =
      Except.ok (BuildResult.mapping
        [(("text"), Value.str ("abcxyz")), (("prefix"), Value.str ("abc"))])
    ∧ (contextBuild contextTestProg Mode.blocking 20
        (CTarget.single ("class")) initInjState).result =
      Except.ok (BuildResult.one (Value.obj (Value.str ("abcxyz"))))
    ∧ (contextBuild contextTestProg Mode.blocking 20
        (CTarget.factoryT 1) initInjState).result =
      Except.ok (BuildResult.one (Value.obj (Value.str ("abcxyz"))))
    ∧ (inject_run contextTestProg Mode.blocking 20
        [Target.name ("text"), Target.name ("prefix")] initInjState).result =
      Except.ok (BuildResult.many [Value.str ("abcxyz"), Value.str ("abc")]) :=
  ⟨rfl, rfl, rfl, rfl, rfl⟩

/-- C6 counterexample: the claim says the first parameter with a literal
default triggers keyword phase and is itself left unset.  For the factory
`f(a="x")` with `a` bound in the registry, the binder instead resolves
`a` (the line 116 check precedes the default check) and passes it
positionally, with the keyword phase never entered: the positional list
is `[a = "A"]`, not empty. -/
theorem claim_C6_defaulted_resolvable_counterexample :
    (build_parameters defaultedParamProg Mode.blocking 9
        defaultedParamFactory (initialBState [] 0)).1 =
      Except.ok ⟨[(("a"), Value.str ("A"))], none, [], none, false⟩
    ∧ ([(("a"), Value.str ("A"))] : List (String × Value)) ≠ [] :=
  ⟨rfl, by decide⟩

/-- C6 as amended: keyword phase is entered by the first parameter with a
literal default that is NOT name-resolvable from the cache or registry
(a resolvable one is resolved by the line 116 branch first).
(1) Such a parameter is itself left unset — the binder just sets the
finished flag and moves on.  (2) Once the flag is set, a following
positional-or-keyword parameter that resolves is appended to the keyword
arguments.  (3) Run-level: with the flag set, and no positional-only
parameters among those remaining, a successful binder run adds nothing
further to the positional list — every later binding is by keyword. -/
theorem claim_C6_keyword_phase :
    (∀ (prog : Prog)
        (recurse : ReqN → BState → Except JErr Value × BState)
        (fd : FactoryDef) (p : Param) (rest : List Param) (acc : PAcc)
        (st : BState),
      st.cache.lookup p.name = none →
      prog.context.lookup p.name = none →
      p.kind ≠ PKind.varPos → p.kind ≠ PKind.varKw →
      p.hasDefault = true →
      buildParametersAux prog recurse fd (p :: rest) acc st =
        buildParametersAux prog recurse fd rest
          { acc with positionalParamsFinished := true } st)
    ∧ (∀ (prog : Prog)
        (recurse : ReqN → BState → Except JErr Value × BState)
        (fd : FactoryDef) (p : Param) (rest : List Param) (acc : PAcc)
        (st : BState) (v : Value) (st' : BState),
      acc.positionalParamsFinished = true →
      p.kind = PKind.posOrKw →
      ((st.cache.lookup p.name).isSome ∨
        (prog.context.lookup p.name).isSome) →
      recurse (ReqN.byName p.name) st = (Except.ok v, st') →
      buildParametersAux prog recurse fd (p :: rest) acc st =
        buildParametersAux prog recurse fd rest
          { acc with keywordParams := acc.keywordParams ++ [(p.name, v)] }
          st')
    ∧ (∀ (prog : Prog)
        (recurse : ReqN → BState → Except JErr Value × BState)
        (fd : FactoryDef) (ps : List Param),
      (∀ p ∈ ps, p.kind ≠ PKind.posOnly) →
      ∀ (acc : PAcc) (st : BState) (acc' : PAcc) (st'' : BState),
        acc.positionalParamsFinished = true →
        buildParametersAux prog recurse fd ps acc st =
          (Except.ok acc', st'') →
        acc'.positionalParams = acc.positionalParams) := by
  refine ⟨?_, ?_, ?_⟩
  · intro prog recurse fd p rest acc st hc hctx hvp hvk hd
    rw [buildParametersAux, if_neg (by simp [hc, hctx]), if_neg hvp,
      if_neg hvk, if_pos hd]
  · intro prog recurse fd p rest acc st v st' hflag hkind hres hr
    rw [buildParametersAux, if_pos hres, hr]
    show buildParametersAux prog recurse fd rest (assignByKind acc p v) st' = _
    rw [show assignByKind acc p v =
      { acc with keywordParams := acc.keywordParams ++ [(p.name, v)] } by
        simp [assignByKind, hkind, hflag]]
  · intro prog recurse fd ps
    induction ps with
    | nil =>
      intro _ acc st acc' st'' _ hE
      rw [buildParametersAux] at hE
      simp only [Prod.mk.injEq, Except.ok.injEq] at hE
      rw [hE.1]
    | cons p rest ih =>
      intro hkinds acc st acc' st'' hflag hE
      have hkp : p.kind ≠ PKind.posOnly := hkinds p (List.mem_cons_self p rest)
      have hkrest : ∀ q ∈ rest, q.kind ≠ PKind.posOnly := fun q hq =>
        hkinds q (List.mem_cons_of_mem p hq)
      rw [buildParametersAux] at hE
      by_cases hres :
          (st.cache.lookup p.name).isSome ∨ (prog.context.lookup p.name).isSome
      · rw [if_pos hres] at hE
        cases hr : recurse (ReqN.byName p.name) st with
        | mk r st' =>
          rw [hr] at hE
          cases r with
          | error e => cases hE
          | ok v =>
            have := ih hkrest (assignByKind acc p v) st' acc' st''
              (by rw [assignByKind_flag, hflag]) hE
            rw [this, assignByKind_positional_frozen acc p v hkp hflag]
      · rw [if_neg hres] at hE
        by_cases hvp : p.kind = PKind.varPos
        · rw [if_pos hvp] at hE
          exact ih hkrest acc st acc' st'' hflag hE
        · rw [if_neg hvp] at hE
          by_cases hvk : p.kind = PKind.varKw
          · rw [if_pos hvk] at hE
            exact ih hkrest acc st acc' st'' hflag hE
          · rw [if_neg hvk] at hE
            by_cases hd : p.hasDefault
            · rw [if_pos hd] at hE
              have := ih hkrest { acc with positionalParamsFinished := true }
                st acc' st'' rfl hE
              exact this
            · rw [if_neg hd] at hE
              cases hann : p.ann with
              | none => rw [hann] at hE; cases hE
              | some aid =>
                rw [hann] at hE
                have hE2 : (match recurse (ReqN.byFactory aid (some p.name)) st with
                    | (Except.ok v, st') =>
                      buildParametersAux prog recurse fd rest
                        (assignByKind acc p v) st'
                    | (Except.error e, st') => (Except.error e, st')) =
                    (Except.ok acc', st'') := hE
                cases hr : recurse (ReqN.byFactory aid (some p.name)) st with
                | mk r st' =>
                  rw [hr] at hE2
                  cases r with
                  | error e => cases hE2
                  | ok v =>
                    have := ih hkrest (assignByKind acc p v) st' acc' st''
                      (by rw [assignByKind_flag, hflag]) hE2
                    rw [this, assignByKind_positional_frozen acc p v hkp hflag]

/-- C6 witness: the three keyword-phase facts on concrete inputs — a
defaulted unresolvable parameter `q` only sets the flag, a resolvable
positional-or-keyword parameter `w` after the flag goes to the keyword
list, and a run over `[w]` with the flag set leaves the positional list
untouched. -/
theorem claim_C6_keyword_phase_witness :
    (buildParametersAux annProg (constRecurse (Value.num 0))
        defaultFactoryDef [⟨"q", PKind.posOrKw, true, none⟩] initPAcc
        (initialBState [] 0) =
      buildParametersAux annProg (constRecurse (Value.num 0))
        defaultFactoryDef []
        { initPAcc with positionalParamsFinished := true }
        (initialBState [] 0))
    ∧ (buildParametersAux annProg (constRecurse (Value.num 2))
        defaultFactoryDef [⟨"w", PKind.posOrKw, false, none⟩]
        { initPAcc with positionalParamsFinished := true }
        (initialBState [(("w"), Value.num 2)] 0) =
      buildParametersAux annProg (constRecurse (Value.num 2))
        defaultFactoryDef []
        { initPAcc with
            keywordParams := [(("w"), Value.num 2)],
            positionalParamsFinished := true }
        (initialBState [(("w"), Value.num 2)] 0))
    ∧ (⟨[], none, [(("w"), Value.num 2)], none, true⟩ : PAcc).positionalParams =
        ({ initPAcc with positionalParamsFinished := true } : PAcc).positionalParams := by
  refine ⟨?_, ?_, ?_⟩
  · exact claim_C6_keyword_phase.1 annProg (constRecurse (Value.num 0))
      defaultFactoryDef ⟨"q", PKind.posOrKw, true, none⟩ [] initPAcc
      (initialBState [] 0) rfl rfl (by decide) (by decide) rfl
  · have h := claim_C6_keyword_phase.2.1 annProg (constRecurse (Value.num 2))
      defaultFactoryDef ⟨"w", PKind.posOrKw, false, none⟩ []
      { initPAcc with positionalParamsFinished := true }
      (initialBState [(("w"), Value.num 2)] 0) (Value.num 2)
      (initialBState [(("w"), Value.num 2)] 0) rfl rfl
      (Or.inl (by rfl)) rfl
    exact h
  · exact claim_C6_keyword_phase.2.2 annProg (constRecurse (Value.num 2))
      defaultFactoryDef [⟨"w", PKind.posOrKw, false, none⟩] (by decide)
      { initPAcc with positionalParamsFinished := true }
      (initialBState [(("w"), Value.num 2)] 0)
      ⟨[], none, [(("w"), Value.num 2)], none, true⟩
      (initialBState [(("w"), Value.num 2)] 0) rfl rfl

/-- C7 counterexample: the claim says variadic collectors are skipped
regardless of what the registry contains.  For `f(*args)` with `args`
bound in the registry, the binder resolves the name (line 116) and
assigns the resolved value as the variadic arguments (line 150-151): the
binder output has `args` set, not left empty. -/
theorem claim_C7_variadic_resolvable_counterexample :
    (build_parameters varArgsProg Mode.blocking 9 varArgsFactory
        (initialBState [] 0)).1 =
      Except.ok ⟨[], some (Value.str ("V")), [], none, false⟩
    ∧ some (Value.str ("V")) ≠ (none : Option Value) :=
  ⟨rfl, by decide⟩

/-- C7 as amended: a variadic collector whose name is NOT resolvable
from the cache or registry is skipped and contributes nothing (1); but a
catch-all positional parameter whose name resolves has the resolved
value bound as the variadic positional arguments (2), and likewise a
catch-all keyword parameter as the variadic keyword arguments (3). -/
theorem claim_C7_variadic_collectors :
    (∀ (prog : Prog)
        (recurse : ReqN → BState → Except JErr Value × BState)
        (fd : FactoryDef) (p : Param) (rest : List Param) (acc : PAcc)
        (st : BState),
      st.cache.lookup p.name = none →
      prog.context.lookup p.name = none →
      (p.kind = PKind.varPos ∨ p.kind = PKind.varKw) →
      buildParametersAux prog recurse fd (p :: rest) acc st =
        buildParametersAux prog recurse fd rest acc st)
    ∧ (∀ (prog : Prog)
        (recurse : ReqN → BState → Except JErr Value × BState)
        (fd : FactoryDef) (p : Param) (rest : List Param) (acc : PAcc)
        (st : BState) (v : Value) (st' : BState),
      p.kind = PKind.varPos →
      ((st.cache.lookup p.name).isSome ∨
        (prog.context.lookup p.name).isSome) →
      recurse (ReqN.byName p.name) st = (Except.ok v, st') →
      buildParametersAux prog recurse fd (p :: rest) acc st =
        buildParametersAux prog recurse fd rest
          { acc with args := some v } st')
    ∧ (∀ (prog : Prog)
        (recurse : ReqN → BState → Except JErr Value × BState)
        (fd : FactoryDef) (p : Param) (rest : List Param) (acc : PAcc)
        (st : BState) (v : Value) (st' : BState),
      p.kind = PKind.varKw →
      ((st.cache.lookup p.name).isSome ∨
        (prog.context.lookup p.name).isSome) →
      recurse (ReqN.byName p.name) st = (Except.ok v, st') →
      buildParametersAux prog recurse fd (p :: rest) acc st =
        buildParametersAux prog recurse fd rest
          { acc with kwargs := some v } st') := by
  refine ⟨?_, ?_, ?_⟩
  · intro prog recurse fd p rest acc st hc hctx hk
    rcases hk with hk | hk
    · rw [buildParametersAux, if_neg (by simp [hc, hctx]), if_pos hk]
    · have hvp : p.kind ≠ PKind.varPos := by rw [hk]; decide
      rw [buildParametersAux, if_neg (by simp [hc, hctx]), if_neg hvp,
        if_pos hk]
  · intro prog recurse fd p rest acc st v st' hkind hres hr
    rw [buildParametersAux, if_pos hres, hr]
    show buildParametersAux prog recurse fd rest (assignByKind acc p v) st' = _
    rw [show assignByKind acc p v = { acc with args := some v } by
      simp [assignByKind, hkind]]
  · intro prog recurse fd p rest acc st v st' hkind hres hr
    rw [buildParametersAux, if_pos hres, hr]
    show buildParametersAux prog recurse fd rest (assignByKind acc p v) st' = _
    rw [show assignByKind acc p v = { acc with kwargs := some v } by
      simp [assignByKind, hkind]]

/-- C7 witness: the three variadic facts on concrete inputs — an
unresolvable `*args` is skipped, a registry-bound `*args` receives the
resolved value, and a cache-bound `**kwargs` receives the resolved
value. -/
theorem claim_C7_variadic_collectors_witness :
    (buildParametersAux annProg (constRecurse (Value.num 0))
        defaultFactoryDef [⟨"args", PKind.varPos, false, none⟩] initPAcc
        (initialBState [] 0) =
      buildParametersAux annProg (constRecurse (Value.num 0))
        defaultFactoryDef [] initPAcc (initialBState [] 0))
    ∧ (buildParametersAux varArgsProg (constRecurse (Value.str ("V")))
        defaultFactoryDef [⟨"args", PKind.varPos, false, none⟩] initPAcc
        (initialBState [] 0) =
      buildParametersAux varArgsProg (constRecurse (Value.str ("V")))
        defaultFactoryDef [] { initPAcc with args := some (Value.str ("V")) }
        (initialBState [] 0))
    ∧ (buildParametersAux annProg (constRecurse (Value.num 7))
        defaultFactoryDef [⟨"kwargs", PKind.varKw, false, none⟩] initPAcc
        (initialBState [(("kwargs"), Value.num 7)] 0) =
      buildParametersAux annProg (constRecurse (Value.num 7))
        defaultFactoryDef [] { initPAcc with kwargs := some (Value.num 7) }
        (initialBState [(("kwargs"), Value.num 7)] 0)) := by
  refine ⟨?_, ?_, ?_⟩
  · exact claim_C7_variadic_collectors.1 annProg (constRecurse (Value.num 0))
      defaultFactoryDef ⟨"args", PKind.varPos, false, none⟩ [] initPAcc
      (initialBState [] 0) rfl rfl (Or.inl rfl)
  · exact claim_C7_variadic_collectors.2.1 varArgsProg
      (constRecurse (Value.str ("V"))) defaultFactoryDef
      ⟨"args", PKind.varPos, false, none⟩ [] initPAcc (initialBState [] 0)
      (Value.str ("V")) (initialBState [] 0) rfl (Or.inr (by rfl)) rfl
  · exact claim_C7_variadic_collectors.2.2 annProg (constRecurse (Value.num 7))
      defaultFactoryDef ⟨"kwargs", PKind.varKw, false, none⟩ [] initPAcc
      (initialBState [(("kwargs"), Value.num 7)] 0) (Value.num 7)
      (initialBState [(("kwargs"), Value.num 7)] 0) rfl (Or.inl (by rfl)) rfl

/-- C8 counterexample: the claim says an annotation-built parameter value
is built anonymously and never cached.  Building `h(x: Ann)` (with `x`
bound nowhere) invokes the annotation `Ann` UNDER THE NAME `x`
(line 133 passes `instance_name`), so its result IS stored in the
per-build cache under `x`. -/
theorem claim_C8_annotation_cached_counterexample :
    ((build_by_factory_function annProg Mode.blocking 9 0 (some ("h"))
        (initialBState [] 0)).2).cache.lookup ("x") =
      some (Value.str ("anon"))
    ∧ some (Value.str ("anon")) ≠ (none : Option Value) :=
  ⟨rfl, by decide⟩

/-- C8 as amended: (1) an otherwise unresolvable parameter with a
callable annotation is built by invoking the annotation as a nested
factory NAMED after the parameter (so the result is cached under the
parameter's name, by C3 part 4); (2) builds with no name — a callable
passed directly as the build target — are never cached: a successful
anonymous factory build differs from the equally successful named build
of the same factory exactly by the one cache entry the named build adds.
-/
theorem claim_C8_annotation_named_nested_build :
    (∀ (prog : Prog)
        (recurse : ReqN → BState → Except JErr Value × BState)
        (fd : FactoryDef) (p : Param) (rest : List Param) (acc : PAcc)
        (st : BState) (aid : Nat) (v : Value) (st' : BState),
      st.cache.lookup p.name = none →
      prog.context.lookup p.name = none →
      p.kind ≠ PKind.varPos → p.kind ≠ PKind.varKw →
      p.hasDefault = false →
      p.ann = some aid →
      recurse (ReqN.byFactory aid (some p.name)) st = (Except.ok v, st') →
      buildParametersAux prog recurse fd (p :: rest) acc st =
        buildParametersAux prog recurse fd rest (assignByKind acc p v) st')
    ∧ (∀ (prog : Prog) (mode : Mode) (fuel : Nat) (fid : Nat) (n : String)
        (st : BState) (v : Value) (st' : BState),
      build_by_factory_function prog mode (fuel + 1) fid none st =
        (Except.ok v, st') →
      build_by_factory_function prog mode (fuel + 1) fid (some n) st =
        (Except.ok v, { st' with cache := (n, v) :: st'.cache })) := by
  constructor
  · intro prog recurse fd p rest acc st aid v st' hc hctx hvp hvk hd hann hr
    rw [buildParametersAux, if_neg (by simp [hc, hctx]), if_neg hvp,
      if_neg hvk, if_neg (by simp [hd]), hann]
    show (match recurse (ReqN.byFactory aid (some p.name)) st with
        | (Except.ok v, st') =>
          buildParametersAux prog recurse fd rest (assignByKind acc p v) st'
        | (Except.error e, st') => (Except.error e, st')) = _
    rw [hr]
  · intro prog mode fuel fid n st v st' hE
    rw [build_by_factory_function, exec] at hE
    show exec prog mode (fuel + 1) (ReqN.byFactory fid (some n)) st = _
    rw [exec]
    by_cases hb : (getFactory prog fid).isBuiltin
    · simp only [hb, if_true] at hE
      cases hE
    · simp only [hb, Bool.false_eq_true, if_false] at hE ⊢
      by_cases hmem : fid ∈ st.instStack
      · simp only [if_pos hmem] at hE
        cases hE
      · simp only [if_neg hmem] at hE ⊢
        cases hcc : callFactoryFunctionAux prog (exec prog mode fuel) fid
            (getFactory prog fid) none
            { st with instStack := st.instStack ++ [fid] } with
        | mk r st2 =>
          have hcc' : callFactoryFunctionAux prog (exec prog mode fuel) fid
              (getFactory prog fid) (some n)
              { st with instStack := st.instStack ++ [fid] } = (r, st2) := hcc
          rw [hcc] at hE
          rw [hcc']
          cases r with
          | error e => cases hE
          | ok inst =>
            simp only [Prod.mk.injEq, Except.ok.injEq] at hE
            obtain ⟨hv, hst⟩ := hE
            subst hv
            rw [← hst]

/-- C8 witness: the annotation step at the factory `h(x: Ann)`, and the
named-vs-anonymous comparison for the factory `Ann` itself. -/
theorem claim_C8_annotation_named_nested_build_witness :
    (buildParametersAux annProg (constRecurse (Value.str ("anon")))
        defaultFactoryDef [⟨"x", PKind.posOrKw, false, some 1⟩] initPAcc
        (initialBState [] 0) =
      buildParametersAux annProg (constRecurse (Value.str ("anon")))
        defaultFactoryDef []
        (assignByKind initPAcc ⟨"x", PKind.posOrKw, false, some 1⟩
          (Value.str ("anon")))
        (initialBState [] 0))
    ∧ (build_by_factory_function annProg Mode.blocking 9 1 (some ("y"))
        (initialBState [] 0) =
      (Except.ok (Value.str ("anon")),
       { cache := [(("y"), Value.str ("anon"))], instStack := [],
         exits := [], events := [Event.call 1], nextRid := 0 })) := by
  constructor
  · exact claim_C8_annotation_named_nested_build.1 annProg
      (constRecurse (Value.str ("anon"))) defaultFactoryDef
      ⟨"x", PKind.posOrKw, false, some 1⟩ [] initPAcc (initialBState [] 0)
      1 (Value.str ("anon")) (initialBState [] 0) rfl rfl (by decide)
      (by decide) rfl rfl rfl
  · exact claim_C8_annotation_named_nested_build.2 annProg Mode.blocking 8 1
      ("y") (initialBState [] 0) (Value.str ("anon"))
      { cache := [], instStack := [], exits := [], events := [Event.call 1],
        nextRid := 0 } rfl

/-- C10: a factory whose produced object exposes the async enter/exit
protocol has the produced object replaced by whatever the enter step
yields: for every payload `v`, building `text` against a registry whose
factory returns an async context manager around `v` yields exactly `v`
(for any sufficient fuel); in particular the repository's
test_async_support scenario yields exactly the string
`hello from async context manager`. -/
theorem claim_C10_scoped_resource_yield :
    (∀ (v : Value) (k : Nat),
      (inject_run (acmProg v) Mode.suspending (k + 9)
          [Target.name ("text")] initInjState).result =
        Except.ok (BuildResult.one v))
    ∧ (inject_run (acmProg (Value.str ("hello from async context manager")))
          Mode.suspending 9 [Target.name ("text")] initInjState).result =
        Except.ok (BuildResult.one
          (Value.str ("hello from async context manager"))) :=
  ⟨fun _ _ => rfl, rfl⟩

end JunkieSpec
